import Mathlib

/-!
Verification of the rester-js RESTfulClient against its specification.

The TypeScript source (a thin wrapper over the fetch API) is shallowly
embedded below: JavaScript objects used as string-keyed option bags become
association lists with object-literal spread semantics, the mutable closure
state of an authorization resolver is threaded explicitly, and the external
fetch transport is a parameter.  Every observable of a call (the URL string
and init object handed to fetch, the resolved result, and the sequence of
handler invocations) is returned explicitly so that the specification's
claims can be stated about it.
-/

namespace Rester

/-- Model of the JavaScript values that flow through the client: strings,
numbers (restricted to integers), booleans, null, and plain objects given as
ordered field lists. -/
inductive JSValue where
  | vstr : String → JSValue
  | vnum : Int → JSValue
  | vbool : Bool → JSValue
  | vnull : JSValue
  | vobj : List (String × JSValue) → JSValue

/-- Models JavaScript string coercion (as performed by
URLSearchParams.append on its value argument). -/
def jsToString : JSValue → String
  | .vstr s => s
  | .vnum n => toString n
  | .vbool b => cond b "true" "false"
  | .vnull => "null"
  | .vobj _ => "[object Object]"

/-- Escapes one character as inside a JSON string literal (the escapes JSON
mandates for quote, backslash and common control characters). -/
def jsonEscapeChar (c : Char) : String :=
  if c == '\"' then "\\\""
  else if c == '\\' then "\\\\"
  else if c == '\n' then "\\n"
  else if c == '\r' then "\\r"
  else if c == '\t' then "\\t"
  else String.singleton c

/-- Escapes a string as inside a JSON string literal. -/
def jsonEscape (s : String) : String :=
  s.data.foldl (fun acc c => acc ++ jsonEscapeChar c) ""

/-- A JSON string literal: the escaped text between double quotes. -/
def jsonQuote (s : String) : String :=
  "\"" ++ jsonEscape s ++ "\""

mutual

/-- Models JSON.stringify on the embedded value space. -/
def jsonStringify : JSValue → String
  | .vstr s => jsonQuote s
  | .vnum n => toString n
  | .vbool b => cond b "true" "false"
  | .vnull => "null"
  | .vobj fields => "\x7b" ++ jsonStringifyFields fields ++ "\x7d"

/-- Models JSON.stringify on an object's field list (comma separated
key/value pairs). -/
def jsonStringifyFields : List (String × JSValue) → String
  | [] => ""
  | (k, v) :: rest =>
    jsonQuote k ++ ":" ++ jsonStringify v ++
      (if rest.isEmpty then "" else "," ++ jsonStringifyFields rest)

end

/-- A JavaScript object holding string values, listed in property order: the
model for header bags such as the one passed to fetch.  A list that stands
for an object has pairwise distinct keys. -/
abbrev Headers := List (String × String)

/-- Property read on a string-valued object: the value at the first (and for
a list standing for an object, only) occurrence of the key. -/
def lookupKey : Headers → String → Option String
  | [], _ => none
  | p :: rest, k => if p.1 = k then some p.2 else lookupKey rest k

/-- Property write with JavaScript object semantics: overwriting an existing
key keeps its position, a new key is appended at the end. -/
def setKey : Headers → String → String → Headers
  | [], k, v => [(k, v)]
  | p :: rest, k, v => if p.1 = k then (k, v) :: rest else p :: setKey rest k v

/-- Object spread: keys of the second object are written over the first, in
order, exactly as a literal spreading the two objects evaluates. -/
def spreadObj (a b : Headers) : Headers :=
  b.foldl (fun acc p => setKey acc p.1 p.2) a

theorem lookupKey_setKey_self (m : Headers) (k v : String) :
    lookupKey (setKey m k v) k = some v := by
  induction m with
  | nil => simp [setKey, lookupKey]
  | cons p rest ih =>
    by_cases hp : p.1 = k
    · simp [setKey, lookupKey, hp]
    · simp [setKey, lookupKey, hp, ih]

theorem lookupKey_setKey_ne (m : Headers) (k v k' : String) (hk : k' ≠ k) :
    lookupKey (setKey m k v) k' = lookupKey m k' := by
  induction m with
  | nil => simp [setKey, lookupKey, Ne.symm hk]
  | cons p rest ih =>
    by_cases hp : p.1 = k
    · simp [setKey, lookupKey, hp, Ne.symm hk]
    · simp [setKey, lookupKey, hp, ih]

theorem lookupKey_eq_none_of_not_mem (m : Headers) (k : String)
    (h : k ∉ m.map Prod.fst) : lookupKey m k = none := by
  induction m with
  | nil => rfl
  | cons p rest ih =>
    simp only [List.map_cons, List.mem_cons] at h
    push_neg at h
    simp [lookupKey, Ne.symm h.1, ih h.2]

theorem spreadObj_nil (a : Headers) : spreadObj a [] = a := rfl

theorem spreadObj_cons (a : Headers) (k v : String) (b : Headers) :
    spreadObj a ((k, v) :: b) = spreadObj (setKey a k v) b := rfl

/-- A key absent from the spread source keeps its value from the target. -/
theorem lookupKey_spreadObj_of_none (b a : Headers) (k : String)
    (h : lookupKey b k = none) :
    lookupKey (spreadObj a b) k = lookupKey a k := by
  induction b generalizing a with
  | nil => rfl
  | cons p rest ih =>
    rw [show p = (p.1, p.2) from rfl, spreadObj_cons]
    simp only [lookupKey] at h
    by_cases hp : p.1 = k
    · simp [hp] at h
    · simp only [hp, if_false] at h
      rw [ih _ h, lookupKey_setKey_ne _ _ _ _ (fun hh => hp hh.symm)]

/-- Looking a key up after a spread follows the precedence of the spread: the
source object wins where it has the key, the target answers otherwise.  The
source is required to be a well-formed object (distinct keys). -/
theorem lookupKey_spreadObj (b a : Headers) (k : String)
    (hnodup : (b.map Prod.fst).Nodup) :
    lookupKey (spreadObj a b) k =
      ((lookupKey b k).orElse fun _ => lookupKey a k) := by
  induction b generalizing a with
  | nil => simp [spreadObj_nil, lookupKey, Option.orElse]
  | cons p rest ih =>
    simp only [List.map_cons, List.nodup_cons] at hnodup
    rw [show p = (p.1, p.2) from rfl, spreadObj_cons]
    by_cases hp : p.1 = k
    · have hrest : lookupKey rest k = none := by
        apply lookupKey_eq_none_of_not_mem
        rw [← hp]
        exact hnodup.1
      rw [ih _ hnodup.2, hrest]
      simp [lookupKey, hp, lookupKey_setKey_self, Option.orElse]
    · rw [ih _ hnodup.2, lookupKey_setKey_ne _ _ _ _ (fun hh => hp hh.symm)]
      simp [lookupKey, hp]

/-- A path separator as matched by the character class of the source regex:
a forward slash or a backslash. -/
def isSep (c : Char) : Bool :=
  c == '/' || c == '\\'

/-- Models one global pass of the source regex replace, scanning left to
right for the leftmost match of a non-colon character followed by a run of
separators and replacing it by that character and one forward slash; the
scan resumes after the consumed run.  The fuel argument only bounds the
recursion and any value at least the list length gives the regex semantics. -/
def replaceSeps : Nat → List Char → List Char
  | 0, l => l
  | _ + 1, [] => []
  | _ + 1, [c] => [c]
  | fuel + 1, c :: d :: rest =>
    if c != ':' && isSep d then
      c :: '/' :: replaceSeps fuel (rest.dropWhile isSep)
    else
      c :: replaceSeps fuel (d :: rest)

/-- The string normalization performed by createURL before handing the text
to the URL constructor: the source's replace of the pattern matching a
non-colon character followed by separators. -/
def collapseSlashes (s : String) : String :=
  String.mk (replaceSeps s.data.length s.data)

/-- Modelled from the claim text: every maximal run of separators that is not
immediately preceded by a colon becomes a single forward slash, and a run
immediately preceded by a colon is preserved untouched.  The Boolean records
whether the previous character was a colon; fuel as in replaceSeps. -/
def collapseClaimedAux : Nat → Bool → List Char → List Char
  | 0, _, l => l
  | _ + 1, _, [] => []
  | fuel + 1, prevColon, c :: cs =>
    if isSep c then
      (if prevColon then c :: cs.takeWhile isSep else ['/']) ++
        collapseClaimedAux fuel false (cs.dropWhile isSep)
    else
      c :: collapseClaimedAux fuel (c == ':') cs

/-- The claim's collapse rule applied to a whole string (no character
precedes the first one, so the initial flag is false). -/
def collapseClaimed (s : String) : String :=
  String.mk (collapseClaimedAux s.data.length false s.data)

/-- The corrected collapse rule: a maximal run of separators preceded by a
non-colon character becomes a single forward slash, while a run at the very
start of the string or immediately preceded by a colon keeps its first
character unchanged and has the remaining separators of the run collapsed to
one forward slash.  The Boolean records whether the first character of a run
must be kept (start of string or after a colon). -/
def collapseAmendedAux : Nat → Bool → List Char → List Char
  | 0, _, l => l
  | _ + 1, _, [] => []
  | fuel + 1, keepFirst, c :: cs =>
    if isSep c then
      (if keepFirst then
        c :: (if (cs.takeWhile isSep).isEmpty then [] else ['/'])
      else ['/']) ++
        collapseAmendedAux fuel false (cs.dropWhile isSep)
    else
      c :: collapseAmendedAux fuel (c == ':') cs

/-- The corrected collapse rule on a whole string (the first character of a
leading run is kept, so the initial flag is true). -/
def collapseAmended (s : String) : String :=
  String.mk (collapseAmendedAux s.data.length true s.data)

theorem dropWhile_length_le (p : Char → Bool) (l : List Char) :
    (l.dropWhile p).length ≤ l.length := by
  induction l with
  | nil => simp
  | cons c cs ih =>
    rw [List.dropWhile_cons]
    by_cases h : p c
    · simp only [h, if_true]
      exact Nat.le_trans ih (Nat.le_succ _)
    · simp [h]

theorem dropWhile_isSep_head (l : List Char) (c : Char) (cs : List Char)
    (h : l.dropWhile isSep = c :: cs) : isSep c = false := by
  induction l with
  | nil => simp [List.dropWhile] at h
  | cons d ds ih =>
    rw [List.dropWhile_cons] at h
    by_cases hd : isSep d
    · exact ih (by simpa [hd] using h)
    · obtain ⟨rfl, _⟩ : d = c ∧ ds = cs := by
        simpa [hd] using h
      simpa using hd

theorem collapseAmendedAux_nil (f : Nat) (b : Bool) :
    collapseAmendedAux f b [] = [] := by
  cases f <;> rfl

theorem collapseAmendedAux_flag (f : Nat) (b : Bool) (c : Char)
    (cs : List Char) (h : isSep c = false) :
    collapseAmendedAux f b (c :: cs) = collapseAmendedAux f true (c :: cs) := by
  cases f with
  | zero => rfl
  | succ f => simp [collapseAmendedAux, h]

theorem collapseAmendedAux_flag_dropWhile (f : Nat) (b : Bool)
    (l : List Char) :
    collapseAmendedAux f b (l.dropWhile isSep) =
      collapseAmendedAux f true (l.dropWhile isSep) := by
  cases hl : l.dropWhile isSep with
  | nil => rw [collapseAmendedAux_nil, collapseAmendedAux_nil]
  | cons c cs => exact collapseAmendedAux_flag f b c cs (dropWhile_isSep_head l c cs hl)

theorem isSep_ne_colon (c : Char) (h : isSep c = true) : (c != ':') = true := by
  simp only [isSep, Bool.or_eq_true, beq_iff_eq] at h
  rcases h with h | h <;> subst h <;> decide

theorem replaceSeps_match (f : Nat) (c d : Char) (rest : List Char)
    (h : (c != ':' && isSep d) = true) :
    replaceSeps (f + 1) (c :: d :: rest) =
      c :: '/' :: replaceSeps f (rest.dropWhile isSep) := by
  simp [replaceSeps, h]

theorem replaceSeps_nomatch (f : Nat) (c d : Char) (rest : List Char)
    (h : (c != ':' && isSep d) = false) :
    replaceSeps (f + 1) (c :: d :: rest) =
      c :: replaceSeps f (d :: rest) := by
  simp [replaceSeps, h]

theorem collapseAmendedAux_sep (f : Nat) (b : Bool) (c : Char)
    (cs : List Char) (h : isSep c = true) :
    collapseAmendedAux (f + 1) b (c :: cs) =
      (if b then c :: (if (cs.takeWhile isSep).isEmpty then [] else ['/'])
       else ['/']) ++ collapseAmendedAux f false (cs.dropWhile isSep) := by
  simp [collapseAmendedAux, h]

theorem collapseAmendedAux_nonsep (f : Nat) (b : Bool) (c : Char)
    (cs : List Char) (h : isSep c = false) :
    collapseAmendedAux (f + 1) b (c :: cs) =
      c :: collapseAmendedAux f (c == ':') cs := by
  simp [collapseAmendedAux, h]

/-- The regex scan of the source and the maximal-run description agree on
every character list, for any sufficient fuel. -/
theorem replaceSeps_eq_collapseAmendedAux :
    ∀ (f₁ f₂ : Nat) (l : List Char), l.length ≤ f₁ → l.length ≤ f₂ →
      replaceSeps f₁ l = collapseAmendedAux f₂ true l := by
  intro f₁
  induction f₁ with
  | zero =>
    intro f₂ l h1 _
    obtain rfl : l = [] := List.length_eq_zero.mp (Nat.le_zero.mp h1)
    rw [collapseAmendedAux_nil]
    rfl
  | succ f ih =>
    intro f₂ l h1 h2
    match l with
    | [] =>
      rw [collapseAmendedAux_nil]
      rfl
    | [c] =>
      match f₂ with
      | 0 => simp at h2
      | f₂' + 1 =>
        by_cases hc : isSep c
        · rw [collapseAmendedAux_sep f₂' true c [] hc]
          simp [replaceSeps, collapseAmendedAux_nil, List.takeWhile, List.dropWhile]
        · rw [collapseAmendedAux_nonsep f₂' true c [] (by simpa using hc)]
          simp [replaceSeps, collapseAmendedAux_nil]
    | c :: d :: rest =>
      match f₂ with
      | 0 => simp at h2
      | f₂' + 1 =>
        simp only [List.length_cons] at h1 h2
        have hlen : (rest.dropWhile isSep).length ≤ rest.length :=
          dropWhile_length_le _ _
        by_cases hc : isSep c
        · by_cases hd : isSep d
          · have hcond : (c != ':' && isSep d) = true := by
              rw [isSep_ne_colon c hc, hd]
              rfl
            rw [replaceSeps_match f c d rest hcond,
              collapseAmendedAux_sep f₂' true c (d :: rest) hc,
              List.takeWhile_cons, List.dropWhile_cons]
            simp only [hd, if_true, List.isEmpty_cons, Bool.false_eq_true,
              if_false, if_true]
            rw [ih f₂' (rest.dropWhile isSep) (by omega) (by omega),
              collapseAmendedAux_flag_dropWhile f₂' false rest]
            rfl
          · have hd' : isSep d = false := by simpa using hd
            have hcond : (c != ':' && isSep d) = false := by
              rw [hd']
              exact Bool.and_false _
            rw [replaceSeps_nomatch f c d rest hcond,
              collapseAmendedAux_sep f₂' true c (d :: rest) hc,
              List.takeWhile_cons, List.dropWhile_cons]
            simp only [hd', Bool.false_eq_true, if_false, List.isEmpty_nil,
              if_true]
            rw [ih f₂' (d :: rest) (by simp only [List.length_cons]; omega)
                (by simp only [List.length_cons]; omega),
              collapseAmendedAux_flag f₂' false d rest hd']
            rfl
        · have hc' : isSep c = false := by simpa using hc
          by_cases hcolon : c = ':'
          · subst hcolon
            have hcond : ((':' : Char) != ':' && isSep d) = false := rfl
            rw [replaceSeps_nomatch f ':' d rest hcond,
              collapseAmendedAux_nonsep f₂' true ':' (d :: rest) hc']
            rw [ih f₂' (d :: rest) (by simp only [List.length_cons]; omega)
                (by simp only [List.length_cons]; omega)]
            rfl
          · have hbeq : (c == ':') = false := by simpa using hcolon
            have hne : (c != ':') = true := by simpa using hcolon
            by_cases hd : isSep d
            · have hcond : (c != ':' && isSep d) = true := by
                rw [hne, hd]
                rfl
              match f₂' with
              | 0 => exact (by omega : False).elim
              | f₂'' + 1 =>
                rw [replaceSeps_match f c d rest hcond,
                  collapseAmendedAux_nonsep (f₂'' + 1) true c (d :: rest) hc',
                  hbeq, collapseAmendedAux_sep f₂'' false d rest hd]
                rw [ih f₂'' (rest.dropWhile isSep) (by omega) (by omega),
                  collapseAmendedAux_flag_dropWhile f₂'' false rest]
                rfl
            · have hd' : isSep d = false := by simpa using hd
              have hcond : (c != ':' && isSep d) = false := by
                rw [hd']
                exact Bool.and_false _
              rw [replaceSeps_nomatch f c d rest hcond,
                collapseAmendedAux_nonsep f₂' true c (d :: rest) hc', hbeq]
              rw [ih f₂' (d :: rest) (by simp only [List.length_cons]; omega)
                  (by simp only [List.length_cons]; omega),
                collapseAmendedAux_flag f₂' false d rest hd']

/-- The source normalization equals the corrected run-based description on
every string. -/
theorem collapseSlashes_eq_collapseAmended (s : String) :
    collapseSlashes s = collapseAmended s := by
  unfold collapseSlashes collapseAmended
  rw [replaceSeps_eq_collapseAmendedAux s.data.length s.data.length s.data
    (Nat.le_refl _) (Nat.le_refl _)]

/-- A hexadecimal digit character (uppercase), for percent escapes. -/
def hexDigitChar (n : Nat) : Char :=
  if n < 10 then Char.ofNat (48 + n) else Char.ofNat (55 + n)

/-- A percent escape of one byte value. -/
def percentByte (n : Nat) : String :=
  "%" ++ String.singleton (hexDigitChar (n / 16)) ++
    String.singleton (hexDigitChar (n % 16))

/-- Models the application/x-www-form-urlencoded serialization of one
character, as the URL query serializer applies it: alphanumerics and the
characters asterisk, hyphen, period, underscore stand for themselves, space
becomes a plus sign, anything else is percent-escaped bytewise in UTF-8. -/
def formEncodeChar (c : Char) : String :=
  if c.isAlphanum || c == '*' || c == '-' || c == '.' || c == '_' then
    String.singleton c
  else if c == ' ' then "+"
  else
    String.join (((String.singleton c).toUTF8.toList).map
      (fun b => percentByte b.toNat))

/-- Models form-urlencoded serialization of a string. -/
def formEncode (s : String) : String :=
  String.join (s.data.map formEncodeChar)

/-- Models the serialization of a URL's search parameter list. -/
def serializeQuery (params : List (String × String)) : String :=
  String.intercalate "&" (params.map
    (fun p => formEncode p.1 ++ "=" ++ formEncode p.2))

/-- Model of the URL object created by createURL: the serialized URL text
before any query, together with the search parameter list that
searchParams.append extends. -/
structure URLModel where
  base : String
  params : List (String × String)
  deriving DecidableEq

/-- Models URL.toString: the base text, followed by a question mark and the
serialized search parameters when any are present. -/
def URLModel.toString (u : URLModel) : String :=
  u.base ++ (if u.params.isEmpty then "" else "?" ++ serializeQuery u.params)

/-- The numeric value of a decimal digit string. -/
def natOfDigits (l : List Char) : Nat :=
  l.foldl (fun n c => n * 10 + (c.toNat - 48)) 0

/-- A string is a JavaScript array index when it is the canonical decimal
numeral (digits only, no leading zero except for the numeral zero itself) of
an integer below 2^32 - 1; such object keys are enumerated first and in
ascending numeric order by Object.keys. -/
def isArrayIndex (k : String) : Bool :=
  match k.data with
  | [] => false
  | c :: cs =>
    (c :: cs).all Char.isDigit &&
    (c != '0' || cs.isEmpty) &&
    natOfDigits (c :: cs) < 4294967295

/-- Inserts an array-index key into a list kept ascending by numeric value. -/
def insertIndex (k : String) : List String → List String
  | [] => [k]
  | x :: xs =>
    if natOfDigits k.data ≤ natOfDigits x.data then k :: x :: xs
    else x :: insertIndex k xs

/-- Sorts array-index keys ascending by numeric value. -/
def sortIndices : List String → List String
  | [] => []
  | x :: xs => insertIndex x (sortIndices xs)

/-- Models Object.keys on an object with the given field list: array-index
keys first in ascending numeric order, then the remaining keys in insertion
order. -/
def jsOwnKeys (fields : List (String × JSValue)) : List String :=
  sortIndices ((fields.map Prod.fst).filter isArrayIndex) ++
    (fields.map Prod.fst).filter (fun k => !isArrayIndex k)

/-- Property read on an object with the given field list. -/
def jsGet (fields : List (String × JSValue)) (k : String) : JSValue :=
  match fields with
  | [] => JSValue.vnull
  | p :: rest => if p.1 = k then p.2 else jsGet rest k

/-- Model of the response object handed back by the transport: its numeric
status code and the value its json method would produce. -/
structure Response where
  status : Nat
  json : JSValue

/-- The authorization configuration: a literal header-value string or a
zero-argument resolver function.  A resolver closure may capture mutable
state, modelled by threading a state of type σ explicitly. -/
inductive AuthValue (σ : Type) where
  | str : String → AuthValue σ
  | func : (σ → String × σ) → AuthValue σ

/-- Model of an options object as passed to the verb helpers, to request and
to fetch: the keys the client reads or writes (method, body, headers) plus a
representative pass-through transport key (cache).  A missing field is an
absent key. -/
structure JSOptions where
  method : Option String := none
  body : Option String := none
  headers : Option Headers := none
  cache : Option String := none

/-- Object spread of two options objects: a key present in the second wins,
exactly as a literal spreading the two objects evaluates. -/
def spreadOptions (a b : JSOptions) : JSOptions :=
  { method := b.method <|> a.method
    body := b.body <|> a.body
    headers := b.headers <|> a.headers
    cache := b.cache <|> a.cache }

/-- The ResterOptions bag accepted by the constructor.  Every field is
optional; fetchOptions is part of the declared type even though the
constructor never reads it. -/
structure ResterOptions (σ : Type) where
  authorization : Option (AuthValue σ) := none
  contentType : Option String := none
  resolver : Option (Response → JSValue) := none
  errorHandler : Option (Nat → Response → Unit) := none
  fetchOptions : Option JSOptions := none

/-- Models the JavaScript or-else idiom x || d on an optional string: the
empty string is the only falsy string, so it also falls back to the
default. -/
def jsOrString (o : Option String) (d : String) : String :=
  match o with
  | some s => if s = "" then d else s
  | none => d

/-- The client's configuration state: the fields the constructor assigns. -/
structure RESTfulClient (σ : Type) where
  root : String
  authorization : AuthValue σ
  contentType : String
  fetchOptions : JSOptions
  resolver : Response → JSValue
  errorHandler : Nat → Response → Unit

/-- Models the source constructor.  authorization falls back to the empty
string through the or-else idiom (a string value that is empty is falsy and
falls back to the same empty string, a function value is truthy and kept);
contentType falls back to application/json; resolver defaults to reading the
response's json body; errorHandler defaults to console.error, modelled as a
function with no observable effect on the pure state; fetchOptions is
assigned the empty object unconditionally, the constructor never reads
options.fetchOptions. -/
def RESTfulClient.constructor {σ : Type} (root : String)
    (options : Option (ResterOptions σ)) : RESTfulClient σ :=
  { root := root
    authorization := (options.bind (fun o => o.authorization)).getD (.str "")
    contentType :=
      jsOrString (options.bind (fun o => o.contentType)) "application/json"
    resolver := (options.bind (fun o => o.resolver)).getD (fun r => r.json)
    errorHandler := (options.bind (fun o => o.errorHandler)).getD (fun _ _ => ())
    fetchOptions := {} }

/-- The init object handed to the transport: the spread of the client's
fetchOptions and the per-call options, with the headers key always set last
to the merged header object. -/
structure FetchInit where
  method : Option String
  body : Option String
  headers : Headers
  cache : Option String

/-- One observable invocation performed during a call: the authorization
resolver being called, the transport being called, the error handler being
called with a status code and response, or the success resolver being called
with a response. -/
inductive Event where
  | authCall : Event
  | fetchCall : String → FetchInit → Event
  | errorCall : Nat → Response → Event
  | resolveCall : Response → Event

/-- Recognizes an authorization-resolver invocation in an event trace. -/
def isAuthCall : Event → Bool
  | .authCall => true
  | _ => false

/-- The external transport: what the fetch primitive looks like to the
client.  It is a parameter of every request. -/
abbrev Fetch := String → FetchInit → Response

/-- What getAuthorization produces: the header value, the client afterwards,
the resolver state afterwards, and the trace of resolver invocations. -/
structure AuthOut (σ : Type) where
  value : String
  client : RESTfulClient σ
  state : σ
  events : List Event

/-- Models getAuthorization: a string-typed authorization is returned as is,
anything else is invoked as a zero-argument function and its returned string
used.  The method reads the configuration and assigns nothing. -/
def RESTfulClient.getAuthorization {σ : Type} (c : RESTfulClient σ) (s : σ) :
    AuthOut σ :=
  match c.authorization with
  | .str v => { value := v, client := c, state := s, events := [] }
  | .func f =>
    let p := f s
    { value := p.1, client := c, state := p.2, events := [Event.authCall] }

/-- What resolve produces: the call's result (the resolver's value on
success, the raw response on error), the client afterwards, and the trace of
handler invocations. -/
structure ResolveOut (σ : Type) where
  result : JSValue ⊕ Response
  client : RESTfulClient σ
  events : List Event

/-- Models resolve: a status of at least 400 routes to the error handler and
returns the raw response, anything else routes to the success resolver and
returns its value.  The trace records the single handler invocation with its
arguments. -/
def RESTfulClient.resolve {σ : Type} (c : RESTfulClient σ) (r : Response) :
    ResolveOut σ :=
  if r.status ≥ 400 then
    { result := Sum.inr r, client := c,
      events := [Event.errorCall r.status r] }
  else
    { result := Sum.inl (c.resolver r), client := c,
      events := [Event.resolveCall r] }

/-- What a request produces: the resolved result, the client afterwards, the
authorization-resolver state afterwards, the URL string and init object
handed to the transport, and the full trace of invocations in order. -/
structure RequestOut (σ : Type) where
  result : JSValue ⊕ Response
  client : RESTfulClient σ
  authState : σ
  sentUrl : String
  sentInit : FetchInit
  events : List Event

/-- Models request: the init object spreads the client's fetchOptions, then
the per-call options, then sets the headers key to the spread of the
fetchOptions headers, the synthesized Content-Type and Authorization pair,
and the per-call headers; the transport is called once and its response is
passed through resolve. -/
def RESTfulClient.request {σ : Type} (fetch : Fetch) (c : RESTfulClient σ)
    (s : σ) (url : String) (options : JSOptions) : RequestOut σ :=
  let a := c.getAuthorization s
  let headers :=
    spreadObj
      (spreadObj (c.fetchOptions.headers.getD [])
        [("Content-Type", c.contentType), ("Authorization", a.value)])
      (options.headers.getD [])
  let init : FetchInit :=
    { method := options.method <|> c.fetchOptions.method
      body := options.body <|> c.fetchOptions.body
      headers := headers
      cache := options.cache <|> c.fetchOptions.cache }
  let response := fetch url init
  let res := a.client.resolve response
  { result := res.result
    client := res.client
    authState := a.state
    sentUrl := url
    sentInit := init
    events := a.events ++ [Event.fetchCall url init] ++ res.events }

/-- The text the source's createURL builds and hands to the URL
constructor: root, a slash and the resource path concatenated, with the
separator-collapsing replace applied. -/
def RESTfulClient.createURLText {σ : Type} (c : RESTfulClient σ)
    (resourceUri : String) : String :=
  collapseSlashes (c.root ++ "/" ++ resourceUri)

/-- A plain host character: a lowercase ASCII letter or a dot. -/
def isPlainHostChar (c : Char) : Bool :=
  c.isLower || c == '.'

/-- A plain path character: an ASCII alphanumeric or one of dot, hyphen,
underscore, tilde, colon, slash — characters the URL parser neither
percent-encodes nor otherwise rewrites inside a path. -/
def isPlainPathChar (c : Char) : Bool :=
  c.isAlphanum || c == '.' || c == '-' || c == '_' || c == '~' ||
    c == ':' || c == '/'

/-- Detects two adjacent dots. -/
def noDoubleDot : List Char → Bool
  | '.' :: '.' :: _ => false
  | _ :: rest => noDoubleDot rest
  | [] => true

/-- A plain host: nonempty, plain characters only, and dots neither leading,
trailing nor doubled, so that the host parser keeps it verbatim (no case
folding, no IPv4 or punycode rewriting). -/
def hostOK (h : List Char) : Bool :=
  match h with
  | [] => false
  | c :: _ =>
    c != '.' && h.all isPlainHostChar &&
      (match h.getLast? with | some d => d != '.' | none => false) &&
      noDoubleDot h

/-- Detects a single-dot or double-dot path segment, which the URL parser
would remove or resolve. -/
def hasDotSegment : List Char → Bool
  | '/' :: '.' :: [] => true
  | '/' :: '.' :: '/' :: _ => true
  | '/' :: '.' :: '.' :: [] => true
  | '/' :: '.' :: '.' :: '/' :: _ => true
  | _ :: rest => hasDotSegment rest
  | [] => false

/-- A plain authority-and-path remainder: a plain host up to the first
slash, then a nonempty plain path with no dot segments. -/
def hostPathOK (l : List Char) : Bool :=
  hostOK (l.takeWhile (fun c => c != '/')) &&
    !(l.dropWhile (fun c => c != '/')).isEmpty &&
    (l.dropWhile (fun c => c != '/')).all isPlainPathChar &&
    !hasDotSegment (l.dropWhile (fun c => c != '/'))

/-- Models the success-and-identity fragment of the URL constructor: a
lowercase http or https scheme, the colon-slash-slash separator, and a plain
host and path.  On such text the constructor succeeds and serializes the
text unchanged. -/
def isPlainURLText (s : String) : Bool :=
  match s.data with
  | 'h' :: 't' :: 't' :: 'p' :: 's' :: ':' :: '/' :: '/' :: rest =>
    hostPathOK rest
  | 'h' :: 't' :: 't' :: 'p' :: ':' :: '/' :: '/' :: rest => hostPathOK rest
  | _ => false

/-- Models createURL, the URL constructor's failure included: the collapsed
text is parsed; on the plain fragment the constructor yields the URL bearing
exactly that text and no search parameters.  A result of none models the
constructor not yielding such a URL: it throws on every syntactically
invalid text — in particular on any scheme-less text, such as text starting
with a separator — and text with a scheme outside the plain fragment (where
the real constructor may succeed while normalizing) is also mapped to none;
no claim below relies on that region. -/
def RESTfulClient.createURL {σ : Type} (c : RESTfulClient σ)
    (resourceUri : String) : Option URLModel :=
  if isPlainURLText (c.createURLText resourceUri) then
    some { base := c.createURLText resourceUri, params := [] }
  else
    none

/-! The verb helpers thread the constructed URL into the request core.  A
call whose URL text the constructor rejects throws in the source before any
request is issued; the helper models below describe the observables of
completed calls, and on the plain fragment the constructed URL's text is
exactly the collapsed text they proceed with. -/

/-- Models get: the query object's keys are appended to the URL's search
parameters in Object.keys order with their values coerced to strings, and
the request goes out with the per-call options spread under a GET method. -/
def RESTfulClient.get {σ : Type} (fetch : Fetch) (c : RESTfulClient σ)
    (s : σ) (uri : String) (query : List (String × JSValue))
    (options : JSOptions) : RequestOut σ :=
  let url : URLModel := { base := c.createURLText uri, params := [] }
  let url :=
    { url with
      params :=
        url.params ++ (jsOwnKeys query).map
          (fun k => (k, jsToString (jsGet query k))) }
  c.request fetch s url.toString { options with method := some "GET" }

/-- The conditional body expression of post: a string body is passed
through verbatim, any other body is JSON-stringified. -/
def postBodyText (body : JSValue) : String :=
  match body with
  | .vstr t => t
  | _ => jsonStringify body

/-- Models post: the conditional body text is written to the body key before
the per-call options are spread, and the method key is written after
them. -/
def RESTfulClient.post {σ : Type} (fetch : Fetch) (c : RESTfulClient σ)
    (s : σ) (uri : String) (body : JSValue) (options : JSOptions) :
    RequestOut σ :=
  let url : URLModel := { base := c.createURLText uri, params := [] }
  c.request fetch s url.toString
    { spreadOptions { body := some (postBodyText body) } options with
      method := some "POST" }

/-- Models the delete helper: the per-call options spread under a DELETE
method. -/
def RESTfulClient.delete {σ : Type} (fetch : Fetch) (c : RESTfulClient σ)
    (s : σ) (uri : String) (options : JSOptions) : RequestOut σ :=
  let url : URLModel := { base := c.createURLText uri, params := [] }
  c.request fetch s url.toString { options with method := some "DELETE" }

/-- Models put: the body is always JSON-stringified, even when it is already
a string; the body key is written before the per-call options are spread and
the method key after them. -/
def RESTfulClient.put {σ : Type} (fetch : Fetch) (c : RESTfulClient σ)
    (s : σ) (uri : String) (body : JSValue) (options : JSOptions) :
    RequestOut σ :=
  let url : URLModel := { base := c.createURLText uri, params := [] }
  c.request fetch s url.toString
    { spreadOptions { body := some (jsonStringify body) } options with
      method := some "PUT" }

/-! Concrete instances used by the closed statements below. -/

/-- A client constructed with the root of the specification's examples and
all options defaulted. -/
def demoClient : RESTfulClient Nat :=
  RESTfulClient.constructor "https://api.test" none

/-- A client whose root carries trailing separators, as in the
specification's URL example. -/
def exampleClient : RESTfulClient Nat :=
  RESTfulClient.constructor "https://api.test///" none

/-- A client whose root starts with a separator run. -/
def slashClient : RESTfulClient Nat :=
  RESTfulClient.constructor "//x" none

/-- A client whose root is a plain scheme and host, for paths that carry a
colon of their own. -/
def pathColonClient : RESTfulClient Nat :=
  RESTfulClient.constructor "https://h" none

/-- A transport that always answers with an empty success response. -/
def demoFetch : Fetch :=
  fun _ _ => { status := 200, json := JSValue.vnull }

/-- A client whose authorization resolver counts its invocations in the
threaded state. -/
def counterClient : RESTfulClient Nat :=
  RESTfulClient.constructor "https://api.test"
    (some { authorization := some (.func (fun n => (Nat.repr n, n + 1))) })

/-! Helper lemmas about the request observables. -/

theorem request_sentInit_headers {σ : Type} (fetch : Fetch)
    (c : RESTfulClient σ) (s : σ) (url : String) (opts : JSOptions) :
    (c.request fetch s url opts).sentInit.headers =
      spreadObj
        (spreadObj (c.fetchOptions.headers.getD [])
          [("Content-Type", c.contentType),
            ("Authorization", (c.getAuthorization s).value)])
        (opts.headers.getD []) := rfl

theorem synth_keys_nodup (ct a : String) :
    (([("Content-Type", ct), ("Authorization", a)] : Headers).map
      Prod.fst).Nodup := by
  simp

theorem getAuthorization_str {σ : Type} (c : RESTfulClient σ) (s : σ)
    (v : String) (h : c.authorization = .str v) :
    c.getAuthorization s =
      { value := v, client := c, state := s, events := [] } := by
  simp [RESTfulClient.getAuthorization, h]

theorem getAuthorization_func {σ : Type} (c : RESTfulClient σ) (s : σ)
    (g : σ → String × σ) (h : c.authorization = .func g) :
    c.getAuthorization s =
      { value := (g s).1, client := c, state := (g s).2,
        events := [Event.authCall] } := by
  simp [RESTfulClient.getAuthorization, h]

theorem resolve_client {σ : Type} (c : RESTfulClient σ) (r : Response) :
    (c.resolve r).client = c := by
  unfold RESTfulClient.resolve
  split <;> rfl

theorem resolve_events_no_auth {σ : Type} (c : RESTfulClient σ)
    (r : Response) : (c.resolve r).events.countP isAuthCall = 0 := by
  unfold RESTfulClient.resolve
  split <;> rfl

theorem getAuthorization_client {σ : Type} (c : RESTfulClient σ) (s : σ) :
    (c.getAuthorization s).client = c := by
  unfold RESTfulClient.getAuthorization
  match c.authorization with
  | .str v => rfl
  | .func f => rfl

theorem request_client_eq {σ : Type} (fetch : Fetch) (c : RESTfulClient σ)
    (s : σ) (url : String) (opts : JSOptions) :
    (c.request fetch s url opts).client = c := by
  simp only [RESTfulClient.request]
  rw [resolve_client, getAuthorization_client]

theorem request_authState {σ : Type} (fetch : Fetch) (c : RESTfulClient σ)
    (s : σ) (url : String) (opts : JSOptions) :
    (c.request fetch s url opts).authState = (c.getAuthorization s).state := rfl

theorem request_countP_auth {σ : Type} (fetch : Fetch) (c : RESTfulClient σ)
    (s : σ) (url : String) (opts : JSOptions) :
    (c.request fetch s url opts).events.countP isAuthCall =
      (c.getAuthorization s).events.countP isAuthCall := by
  simp only [RESTfulClient.request]
  rw [List.countP_append, List.countP_append, resolve_events_no_auth]
  simp [List.countP_cons, isAuthCall]

/-! The claims. -/

/-- C1 (counterexample): on the client with root of scheme-and-host h and
the path carrying a colon followed by three slashes, createURL returns a
valid URL — the host and path are plain, the parser keeps the text
unchanged — whose text has the colon-preceded run reduced to a colon and
two slashes, while the claim's rule, which collapses only runs not preceded
by a colon and preserves colon-preceded runs, demands the three slashes
kept; the returned URL therefore differs from the one the claim
describes. -/
theorem createURL_claimed_counterexample :
    pathColonClient.createURL "a:///b" =
      some { base := "https://h/a://b", params := [] } ∧
    collapseClaimed (pathColonClient.root ++ "/" ++ "a:///b") =
      "https://h/a:///b" ∧
    ("https://h/a://b" : String) ≠ "https://h/a:///b" ∧
    slashClient.createURL "a" = none := by
  refine ⟨by decide, by decide, by decide, by decide⟩

/-- C1 (amended): the text handed to the URL constructor is the
concatenation of root, a single slash and the path, in which every maximal
run of slashes or backslashes preceded by a non-colon character is collapsed
to a single forward slash, while a run at the very start of the string or
immediately preceded by a colon keeps its first character and has its
remaining separators collapsed to one forward slash (the scheme separator is
thus preserved); createURL returns the URL bearing exactly that text when
the text is a syntactically valid URL of the plain http or https form, and
throws when the text is invalid — in particular whenever the text starts
with a separator, since a scheme-less string cannot be parsed; the root of
the specification's example with the path of the example yields the
normalized URL, and the root of two slashes then x throws. -/
theorem createURL_collapses_amended {σ : Type} (c : RESTfulClient σ)
    (uri : String) :
    c.createURLText uri = collapseAmended (c.root ++ "/" ++ uri) ∧
    (isPlainURLText (c.createURLText uri) = true →
      c.createURL uri =
        some { base := collapseAmended (c.root ++ "/" ++ uri), params := [] }) ∧
    (∀ ch rest, (c.createURLText uri).data = ch :: rest → isSep ch = true →
      c.createURL uri = none) ∧
    exampleClient.createURL "//a//b" =
      some { base := "https://api.test/a/b", params := [] } ∧
    slashClient.createURL "a" = none := by
  have htext : c.createURLText uri = collapseAmended (c.root ++ "/" ++ uri) :=
    collapseSlashes_eq_collapseAmended (c.root ++ "/" ++ uri)
  refine ⟨htext, ?_, ?_, by decide, by decide⟩
  · intro h
    unfold RESTfulClient.createURL
    rw [h]
    rw [htext]
    rfl
  · intro ch rest hdata hsep
    unfold RESTfulClient.createURL
    suffices hplain : isPlainURLText (c.createURLText uri) = false by
      rw [hplain]
      rfl
    simp only [isSep, Bool.or_eq_true, beq_iff_eq] at hsep
    unfold isPlainURLText
    rw [hdata]
    rcases hsep with h | h <;> subst h <;> rfl

/-- C1 (witness): the amended rule discharged at the specification's example
root, where the collapsed text is plainly valid, and at the separator-led
root, where construction throws. -/
theorem createURL_collapses_amended_witness :
    exampleClient.createURL "//a//b" =
      some { base := "https://api.test/a/b", params := [] } ∧
    slashClient.createURL "a" = none := by
  refine ⟨?_, ?_⟩
  · exact (createURL_collapses_amended exampleClient "//a//b").2.1 (by decide)
  · exact (createURL_collapses_amended slashClient "a").2.2.1 '/'
      ['/', 'x', '/', 'a'] (by decide) (by decide)

/-- C3: resolve routes a response by its status code: at 400 or above the
error handler is invoked exactly once with the status code and the response,
the success resolver is never invoked, and the result is the raw response;
below 400 the success resolver is invoked exactly once with the response,
the error handler is never invoked, and the resolver's value is the
result. -/
theorem resolve_routes_by_status {σ : Type} (c : RESTfulClient σ)
    (r : Response) :
    (r.status ≥ 400 →
      (c.resolve r).result = Sum.inr r ∧
      (c.resolve r).events = [Event.errorCall r.status r]) ∧
    (r.status < 400 →
      (c.resolve r).result = Sum.inl (c.resolver r) ∧
      (c.resolve r).events = [Event.resolveCall r]) := by
  constructor
  · intro h
    simp [RESTfulClient.resolve, h]
  · intro h
    simp [RESTfulClient.resolve, Nat.not_le.mpr h]

/-- C3 (witness): the routing evaluated on a status 404 response and on a
status 200 response. -/
theorem resolve_routes_by_status_witness :
    ((demoClient.resolve { status := 404, json := JSValue.vnull }).result =
        Sum.inr { status := 404, json := JSValue.vnull } ∧
      (demoClient.resolve { status := 404, json := JSValue.vnull }).events =
        [Event.errorCall 404 { status := 404, json := JSValue.vnull }]) ∧
    ((demoClient.resolve { status := 200, json := JSValue.vnull }).result =
        Sum.inl (demoClient.resolver { status := 200, json := JSValue.vnull }) ∧
      (demoClient.resolve { status := 200, json := JSValue.vnull }).events =
        [Event.resolveCall { status := 200, json := JSValue.vnull }]) :=
  ⟨(resolve_routes_by_status demoClient
      { status := 404, json := JSValue.vnull }).1 (by decide),
    (resolve_routes_by_status demoClient
      { status := 200, json := JSValue.vnull }).2 (by decide)⟩

/-- C8: the constructed client's contentType is never empty: it is the
supplied value when that value is truthy and application/json when the
option is unset or falsy, the empty string included. -/
theorem constructor_contentType_fallback {σ : Type} (root : String)
    (opts : Option (ResterOptions σ)) :
    (RESTfulClient.constructor root opts).contentType ≠ "" ∧
    (∀ ct, opts.bind (fun o => o.contentType) = some ct → ct ≠ "" →
      (RESTfulClient.constructor root opts).contentType = ct) ∧
    ((opts.bind (fun o => o.contentType) = none ∨
        opts.bind (fun o => o.contentType) = some "") →
      (RESTfulClient.constructor root opts).contentType = "application/json") := by
  refine ⟨?_, ?_, ?_⟩
  · show jsOrString (opts.bind (fun o => o.contentType)) "application/json" ≠ ""
    cases h : opts.bind (fun o => o.contentType) with
    | none => simp [jsOrString]
    | some s =>
      by_cases hs : s = ""
      · simp [jsOrString, hs]
      · simp [jsOrString, hs]
  · intro ct hct hne
    show jsOrString (opts.bind (fun o => o.contentType)) "application/json" = ct
    rw [hct]
    simp [jsOrString, hne]
  · intro h
    show jsOrString (opts.bind (fun o => o.contentType)) "application/json" =
      "application/json"
    rcases h with h | h <;> rw [h] <;> simp [jsOrString]

/-- C8 (witness): the fallback evaluated on a supplied content type, on an
absent one, and on an empty one. -/
theorem constructor_contentType_fallback_witness :
    (RESTfulClient.constructor (σ := Nat) "r"
        (some { contentType := some "text/plain" })).contentType = "text/plain" ∧
    (RESTfulClient.constructor (σ := Nat) "r" none).contentType =
      "application/json" ∧
    (RESTfulClient.constructor (σ := Nat) "r"
        (some { contentType := some "" })).contentType = "application/json" :=
  ⟨(constructor_contentType_fallback "r"
        (some { contentType := some "text/plain" })).2.1 "text/plain" rfl
      (by decide),
    (constructor_contentType_fallback (σ := Nat) "r" none).2.2 (Or.inl rfl),
    (constructor_contentType_fallback "r"
        (some { contentType := some "" })).2.2 (Or.inr rfl)⟩

/-- C2: the headers handed to the transport are the merge, lowest to highest
precedence, of the client's default fetchOptions headers, the synthesized
Content-Type and Authorization pair, and the per-call headers: a per-call
header of a name wins over the synthesized value of that name, which wins
over a client-level default header of that name. -/
theorem request_header_precedence {σ : Type} (fetch : Fetch)
    (c : RESTfulClient σ) (s : σ) (url : String) (opts : JSOptions)
    (k : String)
    (hnodup : ((opts.headers.getD []).map Prod.fst).Nodup) :
    lookupKey (c.request fetch s url opts).sentInit.headers k =
      ((lookupKey (opts.headers.getD []) k).orElse fun _ =>
        ((lookupKey [("Content-Type", c.contentType),
            ("Authorization", (c.getAuthorization s).value)] k).orElse fun _ =>
          lookupKey (c.fetchOptions.headers.getD []) k)) := by
  rw [request_sentInit_headers, lookupKey_spreadObj _ _ k hnodup,
    lookupKey_spreadObj _ _ k (synth_keys_nodup _ _)]

/-- C2 (witness): a per-call Content-Type beats the synthesized one. -/
theorem request_header_precedence_witness :
    lookupKey (demoClient.request demoFetch 0 "u"
      { headers := some [("Content-Type", "text/css")] }).sentInit.headers
      "Content-Type" = some "text/css" := by
  rw [request_header_precedence demoFetch demoClient 0 "u"
    { headers := some [("Content-Type", "text/css")] } "Content-Type"
    (by decide)]
  decide

/-- C10: when the per-call options carry no Content-Type and no
Authorization header, the headers handed to the transport contain both keys,
the Content-Type key holding the client's content type and the
Authorization key holding the resolved authorization; a client constructed
without an authorization option resolves it to the empty string. -/
theorem request_headers_always_present {σ : Type} (fetch : Fetch)
    (root : String) (opts : Option (ResterOptions σ)) (s : σ) (url : String)
    (callOpts : JSOptions)
    (h1 : lookupKey (callOpts.headers.getD []) "Content-Type" = none)
    (h2 : lookupKey (callOpts.headers.getD []) "Authorization" = none) :
    lookupKey ((RESTfulClient.constructor root opts).request fetch s url
        callOpts).sentInit.headers "Content-Type" =
      some (RESTfulClient.constructor root opts).contentType ∧
    lookupKey ((RESTfulClient.constructor root opts).request fetch s url
        callOpts).sentInit.headers "Authorization" =
      some ((RESTfulClient.constructor root opts).getAuthorization s).value ∧
    (opts.bind (fun o => o.authorization) = none →
      ((RESTfulClient.constructor root opts).getAuthorization s).value = "") := by
  refine ⟨?_, ?_, ?_⟩
  · rw [request_sentInit_headers, lookupKey_spreadObj_of_none _ _ _ h1,
      lookupKey_spreadObj _ _ _ (synth_keys_nodup _ _)]
    simp [lookupKey]
  · rw [request_sentInit_headers, lookupKey_spreadObj_of_none _ _ _ h2,
      lookupKey_spreadObj _ _ _ (synth_keys_nodup _ _)]
    simp [lookupKey]
  · intro h
    simp [RESTfulClient.constructor, RESTfulClient.getAuthorization, h]

/-- C10 (witness): the two keys evaluated on a client built without options
and a call without per-call headers. -/
theorem request_headers_always_present_witness :
    lookupKey ((RESTfulClient.constructor (σ := Nat) "https://api.test"
        none).request demoFetch 0 "u" {}).sentInit.headers "Content-Type" =
      some "application/json" ∧
    lookupKey ((RESTfulClient.constructor (σ := Nat) "https://api.test"
        none).request demoFetch 0 "u" {}).sentInit.headers "Authorization" =
      some "" := by
  have h := request_headers_always_present (σ := Nat) demoFetch
    "https://api.test" none 0 "u" {} rfl rfl
  exact ⟨h.1, by rw [h.2.1, h.2.2 rfl]⟩

/-- C7: a string authorization is used as the Authorization header value as
is; a function authorization is invoked with no arguments exactly once per
request and its returned string used, freshly on every request, so two
consecutive requests whose resolver yields distinct values carry distinct
Authorization header values. -/
theorem authorization_used_fresh {σ : Type} (fetch : Fetch)
    (c : RESTfulClient σ) (s : σ) (url : String) (v : String)
    (g : σ → String × σ) :
    (c.authorization = AuthValue.str v →
      lookupKey (c.request fetch s url {}).sentInit.headers "Authorization" =
        some v ∧
      (c.request fetch s url {}).events.countP isAuthCall = 0) ∧
    (c.authorization = AuthValue.func g →
      lookupKey (c.request fetch s url {}).sentInit.headers "Authorization" =
        some (g s).1 ∧
      (c.request fetch s url {}).events.countP isAuthCall = 1 ∧
      (c.request fetch s url {}).authState = (g s).2 ∧
      ((g s).1 ≠ (g ((g s).2)).1 →
        lookupKey (c.request fetch (c.request fetch s url {}).authState url
            {}).sentInit.headers "Authorization" ≠
          lookupKey (c.request fetch s url {}).sentInit.headers
            "Authorization")) := by
  have hmain : ∀ s' : σ,
      lookupKey (c.request fetch s' url {}).sentInit.headers "Authorization" =
        some (c.getAuthorization s').value := by
    intro s'
    rw [request_sentInit_headers,
      show (({} : JSOptions).headers.getD []) = ([] : Headers) from rfl,
      spreadObj_nil, lookupKey_spreadObj _ _ _ (synth_keys_nodup _ _)]
    simp [lookupKey]
  constructor
  · intro h
    constructor
    · rw [hmain s, getAuthorization_str c s v h]
    · rw [request_countP_auth, getAuthorization_str c s v h]
      rfl
  · intro h
    refine ⟨?_, ?_, ?_, ?_⟩
    · rw [hmain s, getAuthorization_func c s g h]
    · rw [request_countP_auth, getAuthorization_func c s g h]
      rfl
    · rw [request_authState, getAuthorization_func c s g h]
    · intro hne
      rw [hmain, hmain, request_authState, getAuthorization_func c s g h,
        getAuthorization_func c ((g s).2) g h]
      intro hEq
      exact hne ((Option.some.inj hEq).symm)

/-- C7 (witness): a counter-backed resolver is called once per request and
two consecutive requests carry the distinct header values 0 and 1. -/
theorem authorization_used_fresh_witness :
    lookupKey (counterClient.request demoFetch 0 "u" {}).sentInit.headers
        "Authorization" = some "0" ∧
    (counterClient.request demoFetch 0 "u" {}).events.countP isAuthCall = 1 ∧
    lookupKey (counterClient.request demoFetch
        (counterClient.request demoFetch 0 "u" {}).authState "u"
        {}).sentInit.headers "Authorization" ≠
      lookupKey (counterClient.request demoFetch 0 "u" {}).sentInit.headers
        "Authorization" := by
  have h := (authorization_used_fresh demoFetch counterClient 0 "u" ""
    (fun n => (Nat.repr n, n + 1))).2 rfl
  exact ⟨h.1, h.2.1, h.2.2.2 (by decide)⟩

theorem delete_sentInit_headers {σ : Type} (fetch : Fetch)
    (c : RESTfulClient σ) (s : σ) (uri : String) (opts : JSOptions) :
    (RESTfulClient.delete fetch c s uri opts).sentInit.headers =
      spreadObj
        (spreadObj (c.fetchOptions.headers.getD [])
          [("Content-Type", c.contentType),
            ("Authorization", (c.getAuthorization s).value)])
        (opts.headers.getD []) := rfl

/-- C4 (counterexample): a per-call method does not reach the outgoing
request: the get helper writes its own verb after spreading the per-call
options, so a per-call PATCH still goes out as GET. -/
theorem helper_method_counterexample :
    (RESTfulClient.get demoFetch demoClient 0 "r" []
        { method := some "PATCH" }).sentInit.method = some "GET" ∧
    (RESTfulClient.get demoFetch demoClient 0 "r" []
        { method := some "PATCH" }).sentInit.method ≠ some "PATCH" :=
  ⟨by decide, by decide⟩

/-- C4 (amended): the per-call options of every verb helper are merged with
the request core's precedence and can override the body or the headers
entirely, but not the method: each helper writes its own verb after
spreading the per-call options, so the outgoing request always uses the
helper's verb even when the options supply a method value. -/
theorem helper_options_merge_amended {σ : Type} (fetch : Fetch)
    (c : RESTfulClient σ) (s : σ) (uri : String)
    (query : List (String × JSValue)) (b : JSValue) (opts : JSOptions) :
    (RESTfulClient.get fetch c s uri query opts).sentInit.method =
      some "GET" ∧
    (RESTfulClient.post fetch c s uri b opts).sentInit.method =
      some "POST" ∧
    (RESTfulClient.put fetch c s uri b opts).sentInit.method =
      some "PUT" ∧
    (RESTfulClient.delete fetch c s uri opts).sentInit.method =
      some "DELETE" ∧
    (∀ bs, opts.body = some bs →
      (RESTfulClient.delete fetch c s uri opts).sentInit.body = some bs ∧
      (RESTfulClient.post fetch c s uri b opts).sentInit.body = some bs) ∧
    (∀ hs, opts.headers = some hs → (hs.map Prod.fst).Nodup →
      ∀ k x, lookupKey hs k = some x →
        lookupKey (RESTfulClient.delete fetch c s uri opts).sentInit.headers
          k = some x) := by
  refine ⟨rfl, rfl, rfl, rfl, ?_, ?_⟩
  · intro bs hbs
    constructor
    · show (opts.body <|> c.fetchOptions.body) = some bs
      rw [hbs]
      rfl
    · show ((opts.body <|> some (postBodyText b)) <|> c.fetchOptions.body) =
        some bs
      rw [hbs]
      rfl
  · intro hs hhs hnd k x hx
    rw [delete_sentInit_headers, hhs]
    rw [show (some hs).getD ([] : Headers) = hs from rfl]
    rw [lookupKey_spreadObj _ _ _ hnd, hx]
    rfl

/-- C4 (witness): the amended merge evaluated on per-call options carrying a
body and a custom header. -/
theorem helper_options_merge_amended_witness :
    (RESTfulClient.get demoFetch demoClient 0 "r" []
        { body := some "B", headers := some [("X-Custom", "1")] }).sentInit.method
      = some "GET" ∧
    (RESTfulClient.delete demoFetch demoClient 0 "r"
        { body := some "B", headers := some [("X-Custom", "1")] }).sentInit.body
      = some "B" ∧
    lookupKey (RESTfulClient.delete demoFetch demoClient 0 "r"
        { body := some "B", headers := some [("X-Custom", "1")] }).sentInit.headers
        "X-Custom" = some "1" := by
  have h := helper_options_merge_amended demoFetch demoClient 0 "r" []
    JSValue.vnull { body := some "B", headers := some [("X-Custom", "1")] }
  exact ⟨h.1, (h.2.2.2.2.1 "B" rfl).1,
    h.2.2.2.2.2 [("X-Custom", "1")] rfl (by decide) "X-Custom" "1" rfl⟩

/-- C5: a post call with a string body sends the string unchanged and a post
call with any other body sends its JSON-serialized form, while a put call
always sends the JSON-serialized form, so a string input to put becomes a
JSON-quoted string. -/
theorem post_put_body_serialization {σ : Type} (fetch : Fetch)
    (c : RESTfulClient σ) (s : σ) (uri : String) (t : String) (b : JSValue) :
    (RESTfulClient.post fetch c s uri (JSValue.vstr t) {}).sentInit.body =
      some t ∧
    ((∀ u, b ≠ JSValue.vstr u) →
      (RESTfulClient.post fetch c s uri b {}).sentInit.body =
        some (jsonStringify b)) ∧
    (RESTfulClient.put fetch c s uri b {}).sentInit.body =
      some (jsonStringify b) ∧
    jsonStringify (JSValue.vstr t) = "\"" ++ jsonEscape t ++ "\"" := by
  refine ⟨rfl, ?_, rfl, rfl⟩
  intro h
  cases b with
  | vstr u => exact absurd rfl (h u)
  | vnum n => rfl
  | vbool x => rfl
  | vnull => rfl
  | vobj fields => rfl

/-- C5 (witness): the body paths evaluated on a string body and an object
body. -/
theorem post_put_body_serialization_witness :
    (RESTfulClient.post demoFetch demoClient 0 "r" (JSValue.vstr "x")
        {}).sentInit.body = some "x" ∧
    (RESTfulClient.post demoFetch demoClient 0 "r"
        (JSValue.vobj [("a", JSValue.vnum 1)]) {}).sentInit.body =
      some "\x7b\"a\":1\x7d" ∧
    (RESTfulClient.put demoFetch demoClient 0 "r" (JSValue.vstr "x")
        {}).sentInit.body = some "\"x\"" := by
  have h := post_put_body_serialization demoFetch demoClient 0 "r" "x"
    (JSValue.vobj [("a", JSValue.vnum 1)])
  have h2 := post_put_body_serialization demoFetch demoClient 0 "r" "x"
    (JSValue.vstr "x")
  exact ⟨h.1, h.2.1 (fun u hu => JSValue.noConfusion hu), h2.2.2.1⟩

theorem keys_map_jsGet (q : List (String × JSValue))
    (h : (q.map Prod.fst).Nodup) :
    (q.map Prod.fst).map (fun k => (k, jsGet q k)) = q := by
  induction q with
  | nil => rfl
  | cons p rest ih =>
    rw [List.map_cons, List.nodup_cons] at h
    rw [List.map_cons, List.map_cons]
    have hmap : (rest.map Prod.fst).map (fun k => (k, jsGet (p :: rest) k)) =
        (rest.map Prod.fst).map (fun k => (k, jsGet rest k)) := by
      apply List.map_congr_left
      intro k hk
      have hne : p.1 ≠ k := fun hh => h.1 (hh ▸ hk)
      simp [jsGet, hne]
    rw [hmap, ih h.2]
    simp [jsGet]

/-- C6 (counterexample): query entries are not emitted in insertion order
when a key is an array index: Object.keys enumerates the numeric keys in
ascending order first, so the mapping listing key 1 before key 0 yields the
query string with key 0 first. -/
theorem get_query_order_counterexample :
    (RESTfulClient.get demoFetch demoClient 0 "q"
        [("1", JSValue.vstr "a"), ("0", JSValue.vstr "b")] {}).sentUrl =
      "https://api.test/q?0=b&1=a" ∧
    (RESTfulClient.get demoFetch demoClient 0 "q"
        [("1", JSValue.vstr "a"), ("0", JSValue.vstr "b")] {}).sentUrl ≠
      demoClient.createURLText "q" ++ "?" ++
        serializeQuery ([("1", JSValue.vstr "a"),
          ("0", JSValue.vstr "b")].map (fun p => (p.1, jsToString p.2))) :=
  ⟨by decide, by decide⟩

/-- C6 (amended): each query entry is appended to the built URL as a search
parameter with its value coerced to a string; the entries appear in
JavaScript own-property enumeration order, which for a mapping whose keys
are not array indices is the insertion order of the mapping, and in
particular the mapping of id to 1 and name to r yields the query string of
the specification's example. -/
theorem get_query_enumeration_order {σ : Type} (fetch : Fetch)
    (c : RESTfulClient σ) (s : σ) (uri : String)
    (query : List (String × JSValue)) (opts : JSOptions)
    (hkeys : (query.map Prod.fst).Nodup)
    (hnoidx : ∀ k ∈ query.map Prod.fst, isArrayIndex k = false)
    (hne : query ≠ []) :
    (RESTfulClient.get fetch c s uri query opts).sentUrl =
      c.createURLText uri ++ "?" ++
        serializeQuery (query.map (fun p => (p.1, jsToString p.2))) ∧
    (RESTfulClient.get demoFetch demoClient 0 "items"
        [("id", JSValue.vnum 1), ("name", JSValue.vstr "r")] {}).sentUrl =
      "https://api.test/items?id=1&name=r" := by
  constructor
  · have hkeys_eq : jsOwnKeys query = query.map Prod.fst := by
      unfold jsOwnKeys
      rw [List.filter_eq_nil_iff.mpr (fun k hk => by simp [hnoidx k hk]),
        List.filter_eq_self.mpr (fun k hk => by simp [hnoidx k hk])]
      rfl
    have hparams :
        (jsOwnKeys query).map (fun k => (k, jsToString (jsGet query k))) =
          query.map (fun p => (p.1, jsToString p.2)) := by
      rw [hkeys_eq]
      have hcomp :
          (query.map Prod.fst).map (fun k => (k, jsToString (jsGet query k))) =
            ((query.map Prod.fst).map (fun k => (k, jsGet query k))).map
              (fun pr => (pr.1, jsToString pr.2)) := by
        simp [List.map_map]
      rw [hcomp, keys_map_jsGet query hkeys]
    have hurl : (RESTfulClient.get fetch c s uri query opts).sentUrl =
        URLModel.toString
          { base := c.createURLText uri,
            params := ([] : List (String × String)) ++
              (jsOwnKeys query).map
                (fun k => (k, jsToString (jsGet query k))) } := rfl
    rw [hurl, hparams, List.nil_append]
    have hnonempty :
        (query.map (fun p => (p.1, jsToString p.2))).isEmpty = false := by
      cases query with
      | nil => exact absurd rfl hne
      | cons p r => rfl
    simp [URLModel.toString, hnonempty, String.append_assoc]
  · decide

/-- C6 (witness): the insertion-order serialization evaluated on the
specification's example mapping. -/
theorem get_query_enumeration_order_witness :
    (RESTfulClient.get demoFetch demoClient 0 "items"
        [("id", JSValue.vnum 1), ("name", JSValue.vstr "r")] {}).sentUrl =
      "https://api.test/items?id=1&name=r" := by
  rw [(get_query_enumeration_order demoFetch demoClient 0 "items"
    [("id", JSValue.vnum 1), ("name", JSValue.vstr "r")] {} (by decide)
    (by decide) (List.cons_ne_nil _ _)).1]
  decide

/-- C9: no public operation mutates the client's configuration: after any
request, verb helper, resolve or getAuthorization call, the client equals
the client before the call (the authorization resolver's own closure state
is threaded separately and is not part of the configuration). -/
theorem operations_preserve_config {σ : Type} (fetch : Fetch)
    (c : RESTfulClient σ) (s : σ) (url uri : String)
    (query : List (String × JSValue)) (b : JSValue) (opts : JSOptions)
    (r : Response) :
    (c.request fetch s url opts).client = c ∧
    (RESTfulClient.get fetch c s uri query opts).client = c ∧
    (RESTfulClient.post fetch c s uri b opts).client = c ∧
    (RESTfulClient.put fetch c s uri b opts).client = c ∧
    (RESTfulClient.delete fetch c s uri opts).client = c ∧
    (c.resolve r).client = c ∧
    (c.getAuthorization s).client = c :=
  ⟨request_client_eq fetch c s url opts,
    request_client_eq fetch c s _ _,
    request_client_eq fetch c s _ _,
    request_client_eq fetch c s _ _,
    request_client_eq fetch c s _ _,
    resolve_client c r,
    getAuthorization_client c s⟩

end Rester
